import Mathlib

/-!
Shallow embedding of `BaseFeature.featurize_many` / `BaseFeature.featurize_wrapper`
from `xenonpy/descriptor/base.py` (the batch featurizer driver), together with
theorems settling the claims about it.

Modelling conventions:
* A raised Python exception is an `Except.error`; the carried `String` stands for
  the formatted traceback of the exception (what
  `"".join(traceback.format_exception(*sys.exc_info()))` would produce for it).
* The private flags `self.__ignore_errors` / `self.__return_errors`, which the
  source stashes on the instance right after the configuration check and reads
  back inside `featurize_wrapper`, are passed explicitly as parameters; for one
  call of `featurize_many` this is the same data flow.
* Invocations of the user-supplied transform (`self.featurize`) and of the
  label query (`self.feature_labels`) are recorded in an event trace, so that
  claims of the form "the transform is never invoked" can be stated.
* The dispatch on `self.n_jobs` (list comprehension when `n_jobs == 1`,
  `Pool(n_jobs).map` otherwise, and the Python-2 fallback that recurses with
  `n_jobs = 1`) is denotation-irrelevant for the batch result: `Pool.map`
  applies the wrapper to the items in input order, collects the results in
  input order, and re-raises the first exception while discarding the other
  results, exactly as the sequential comprehension does. The embedding keeps
  the `n_jobs` field and uses the common denotation; the event trace models
  the sequential `n_jobs = 1` path.
-/

namespace XenonPy

/-- Decidable equality for `Except`, so that the embedding can be evaluated
on concrete inputs. -/
instance {ε σ : Type} [DecidableEq ε] [DecidableEq σ] : DecidableEq (Except ε σ) :=
  fun a b =>
    match a, b with
    | Except.ok x, Except.ok y =>
      if h : x = y then Decidable.isTrue (congrArg Except.ok h)
      else Decidable.isFalse (fun hh => h (Except.ok.inj hh))
    | Except.error x, Except.error y =>
      if h : x = y then Decidable.isTrue (congrArg Except.error h)
      else Decidable.isFalse (fun hh => h (Except.error.inj hh))
    | Except.ok _, Except.error _ => Decidable.isFalse (fun hh => Except.noConfusion hh)
    | Except.error _, Except.ok _ => Decidable.isFalse (fun hh => Except.noConfusion hh)

/-- A value occurring in a feature vector: a numeric feature, the
`float("nan")` sentinel, or a formatted exception-trace string appended in
error-capture mode. -/
inductive FVal where
  | num (n : Int)
  | nan
  | str (s : String)
deriving DecidableEq

/-- One element of the `entries` argument: a Python object that is either a
tuple/list/ndarray of scalars (the `isinstance(entries[0], (tuple, list,
np.ndarray))` test succeeds) or a bare scalar. -/
inductive PyEntry (α : Type) where
  | scalar (a : α)
  | tup (xs : List α)
deriving DecidableEq

/-- The `entries` argument of `featurize_many`: either a list-like object
(supports `__getitem__`) holding a list of entries, or any object without
`__getitem__`. -/
inductive PyInput (α : Type) where
  | seq (entries : List (PyEntry α))
  | notSeq
deriving DecidableEq

/-- Exceptions `featurize_many` can let escape to its caller: the
configuration `ValueError`, the generic input-shape `Exception`, or an
exception re-raised from the transform (identified by its formatted
traceback). -/
inductive PyError where
  | valueError (msg : String)
  | exception (msg : String)
  | raised (trace : String)
deriving DecidableEq

/-- Observable calls made during one `featurize_many` call: an invocation of
the user transform `self.featurize(*x)` with its positional arguments, or an
invocation of the label query `self.feature_labels()`. -/
inductive Event (α : Type) where
  | featCall (args : List (PyEntry α))
  | labelsCall
deriving DecidableEq

/-- Message of the configuration `ValueError` raised when `return_errors` is
requested without `ignore_errors`. -/
def configErrMsg : String :=
  "Please set ignore_errors to True to use return_errors."

/-- Message of the input-shape `Exception` (the source surrounds the word
entries with single quotes; they are omitted here). -/
def entriesErrMsg : String :=
  "entries must be a list-like object"

/-- Traceback text of the `TypeError` Python raises when `self.featurize(*x)`
tries to unpack a non-iterable object `x` (this happens inside the `try`
block, before `featurize` itself is entered). -/
def starUnpackErrMsg : String :=
  "TypeError: featurize argument after * must be an iterable"

/-- The featurizer instance, restricted to the members `featurize_many` and
`featurize_wrapper` read: the abstract transform `featurize` (an
`Except.error tr` models it raising an exception with formatted traceback
`tr`), the label list returned by `feature_labels()`, and `n_jobs`. `n_jobs`
only selects between the two order-preserving dispatch strategies and does
not change the batch result (see the file comment). -/
structure Featurizer (α : Type) where
  featurize : List (PyEntry α) → Except String (List FVal)
  feature_labels : List String
  n_jobs : Nat

/-- The item handed to `featurize_wrapper`: after `entries = zip(entries)`
each item is the one-element tuple `(e,)` around an original entry
(`zipped e`); without the zip each item is the original entry itself
(`raw e`). -/
inductive WrapItem (α : Type) where
  | zipped (e : PyEntry α)
  | raw (e : PyEntry α)
deriving DecidableEq

/-- The positional arguments `self.featurize(*x)` receives for item `x`, or
the `TypeError` the star-unpacking raises: a zipped item `(e,)` unpacks to
the single argument `e`; a raw tuple entry unpacks to its scalar elements; a
raw scalar is not iterable, so unpacking raises. -/
def starArgs {α : Type} : WrapItem α → Except String (List (PyEntry α))
  | WrapItem.zipped e => Except.ok [e]
  | WrapItem.raw (PyEntry.tup xs) => Except.ok (xs.map PyEntry.scalar)
  | WrapItem.raw (PyEntry.scalar _) => Except.error starUnpackErrMsg

/-- The `isinstance(entries[0], (tuple, list, np.ndarray))` test on one
entry. -/
def PyEntry.isTup {α : Type} : PyEntry α → Bool
  | PyEntry.scalar _ => false
  | PyEntry.tup _ => true

/-- Lines 200-202 of the source: when the first entry is not a
tuple/list/ndarray, `entries = zip(entries)` wraps every entry into a
one-element tuple; otherwise the entries are used as the argument tuples
themselves. -/
def prep {α : Type} : List (PyEntry α) → List (WrapItem α)
  | [] => []
  | e :: es =>
    if e.isTup then (e :: es).map WrapItem.raw
    else (e :: es).map WrapItem.zipped

/-- The `except BaseException` handler of `featurize_wrapper` (lines
236-245), entered with the formatted traceback `tr` of the caught exception
and the events `evs` recorded so far inside the `try` block: with
`ignore_errors` it returns a NaN vector sized by a `feature_labels()` call,
appending the traceback when `return_errors` is set; otherwise it re-raises. -/
def exceptBranch {α : Type} (F : Featurizer α) (ignore_errors return_errors : Bool)
    (tr : String) (evs : List (Event α)) :
    Except String (List FVal) × List (Event α) :=
  if ignore_errors then
    if return_errors then
      (Except.ok (List.replicate F.feature_labels.length FVal.nan ++ [FVal.str tr]),
       evs ++ [Event.labelsCall])
    else
      (Except.ok (List.replicate F.feature_labels.length FVal.nan),
       evs ++ [Event.labelsCall])
  else
    (Except.error tr, evs)

/-- `BaseFeature.featurize_wrapper` (lines 220-245), with the two private
flags passed explicitly. Star-unpacking of `x` happens inside the `try`
block, so its `TypeError` is also caught; a successful `featurize` call
returns its feature list, with a NaN sentinel appended when `return_errors`
is set. The second component is the trace of transform and label-query
invocations. -/
def featurize_wrapper {α : Type} (F : Featurizer α)
    (ignore_errors return_errors : Bool) (x : WrapItem α) :
    Except String (List FVal) × List (Event α) :=
  match starArgs x with
  | Except.error tr => exceptBranch F ignore_errors return_errors tr []
  | Except.ok args =>
    match F.featurize args with
    | Except.ok feats =>
      (Except.ok (if return_errors then feats ++ [FVal.nan] else feats),
       [Event.featCall args])
    | Except.error tr =>
      exceptBranch F ignore_errors return_errors tr [Event.featCall args]

/-- The per-item loop of `featurize_many` (line 206,
`[self.featurize_wrapper(x) for x in entries]`): applies the wrapper to each
item in order, concatenating the event traces; an exception re-raised by the
wrapper aborts the loop, so no list is produced. `Pool(n_jobs).map` on line
218 has the same denotation on results (order-preserving map, first
exception re-raised, no partial list returned). -/
def wrapper_map {α : Type} (F : Featurizer α) (ignore_errors return_errors : Bool) :
    List (WrapItem α) → Except String (List (List FVal)) × List (Event α)
  | [] => (Except.ok [], [])
  | x :: xs =>
    let r := featurize_wrapper F ignore_errors return_errors x
    match r.1 with
    | Except.error tr => (Except.error tr, r.2)
    | Except.ok v =>
      let rest := wrapper_map F ignore_errors return_errors xs
      match rest.1 with
      | Except.error tr => (Except.error tr, r.2 ++ rest.2)
      | Except.ok vs => (Except.ok (v :: vs), r.2 ++ rest.2)

/-- `BaseFeature.featurize_many` (lines 169-218): configuration check first,
then the `__getitem__` input-shape check, the empty-list special case
(`len(entries) is 0`, which for the small integer 0 is length equality), the
single-argument zip wrapping, and finally the per-item loop, whose re-raised
transform exception escapes to the caller unchanged. -/
def featurize_many {α : Type} (F : Featurizer α) (input : PyInput α)
    (ignore_errors return_errors : Bool) :
    Except PyError (List (List FVal)) × List (Event α) :=
  if return_errors && !ignore_errors then
    (Except.error (PyError.valueError configErrMsg), [])
  else
    match input with
    | PyInput.notSeq => (Except.error (PyError.exception entriesErrMsg), [])
    | PyInput.seq entries =>
      if entries.length = 0 then (Except.ok [], [])
      else
        match wrapper_map F ignore_errors return_errors (prep entries) with
        | (Except.error tr, evs) => (Except.error (PyError.raised tr), evs)
        | (Except.ok res, evs) => (Except.ok res, evs)

/-- The feature vector `featurize_wrapper` returns for item `x` in tolerant
mode (`ignore_errors = true`, where the wrapper never re-raises). -/
def wrapOut {α : Type} (F : Featurizer α) (return_errors : Bool) (x : WrapItem α) :
    List FVal :=
  match (featurize_wrapper F true return_errors x).1 with
  | Except.ok v => v
  | Except.error _ => []

/-- Label list of the example featurizer. -/
def labelDouble : String := "double"

/-- Traceback text used by the example featurizer when it raises. -/
def failTrace : String := "TypeError: unsupported input to featurize"

/-- Transform of the example featurizer: doubles a single scalar argument
into a one-element feature vector and raises on any other argument list. -/
def dblFeaturize : List (PyEntry Int) → Except String (List FVal)
  | [PyEntry.scalar a] => Except.ok [FVal.num (2 * a)]
  | _ => Except.error failTrace

/-- A concrete single-label featurizer used to instantiate the theorems. -/
def dblF : Featurizer Int where
  featurize := dblFeaturize
  feature_labels := [labelDouble]
  n_jobs := 1

theorem prep_length {α : Type} (entries : List (PyEntry α)) :
    (prep entries).length = entries.length := by
  cases entries with
  | nil => rfl
  | cons e es => simp only [prep]; split <;> simp

theorem wrapper_ignore_isOk {α : Type} (F : Featurizer α) (ret : Bool)
    (x : WrapItem α) :
    ∃ v, (featurize_wrapper F true ret x).1 = Except.ok v := by
  cases hs : starArgs x with
  | error tr =>
    cases ret <;> simp [featurize_wrapper, hs, exceptBranch]
  | ok args =>
    cases hf : F.featurize args with
    | ok feats =>
      cases ret <;> simp [featurize_wrapper, hs, hf]
    | error tr =>
      cases ret <;> simp [featurize_wrapper, hs, hf, exceptBranch]

theorem wrapOut_spec {α : Type} (F : Featurizer α) (ret : Bool) (x : WrapItem α) :
    (featurize_wrapper F true ret x).1 = Except.ok (wrapOut F ret x) := by
  obtain ⟨v, hv⟩ := wrapper_ignore_isOk F ret x
  simp [wrapOut, hv]

theorem wrapper_map_ignore {α : Type} (F : Featurizer α) (ret : Bool)
    (items : List (WrapItem α)) :
    (wrapper_map F true ret items).1 = Except.ok (items.map (wrapOut F ret)) := by
  induction items with
  | nil => rfl
  | cons x xs ih =>
    simp only [wrapper_map, wrapOut_spec F ret x, List.map_cons]
    rw [show (wrapper_map F true ret xs) = ((wrapper_map F true ret xs).1, (wrapper_map F true ret xs).2) from rfl, ih]

theorem wrapper_map_ok_map {α : Type} (F : Featurizer α) (ign ret : Bool)
    (items : List (WrapItem α)) (res : List (List FVal))
    (h : (wrapper_map F ign ret items).1 = Except.ok res) :
    res.length = items.length ∧
      items.map (fun x => (featurize_wrapper F ign ret x).1) = res.map Except.ok := by
  induction items generalizing res with
  | nil =>
    simp only [wrapper_map] at h
    cases h
    simp
  | cons x xs ih =>
    simp only [wrapper_map] at h
    cases hx : (featurize_wrapper F ign ret x).1 with
    | error tr => rw [hx] at h; simp at h
    | ok v =>
      rw [hx] at h
      cases hr : (wrapper_map F ign ret xs).1 with
      | error tr => rw [hr] at h; simp at h
      | ok vs =>
        rw [hr] at h
        simp only at h
        cases h
        obtain ⟨hlen, hmap⟩ := ih vs hr
        simp [hx, hmap, hlen]

theorem wrapper_map_err_mem {α : Type} (F : Featurizer α) (ign ret : Bool)
    (items : List (WrapItem α))
    (h : ∃ x ∈ items, ∃ tr, (featurize_wrapper F ign ret x).1 = Except.error tr) :
    ∃ tr, (wrapper_map F ign ret items).1 = Except.error tr ∧
      ∃ x ∈ items, (featurize_wrapper F ign ret x).1 = Except.error tr := by
  induction items with
  | nil => obtain ⟨x, hx, _⟩ := h; cases hx
  | cons y ys ih =>
    cases hy : (featurize_wrapper F ign ret y).1 with
    | error tr =>
      exact ⟨tr, by simp only [wrapper_map, hy], y, List.mem_cons_self y ys, hy⟩
    | ok v =>
      have hys : ∃ x ∈ ys, ∃ tr, (featurize_wrapper F ign ret x).1 = Except.error tr := by
        obtain ⟨x, hx, tr, hxe⟩ := h
        rcases List.mem_cons.mp hx with hxy | hxys
        · subst hxy; rw [hy] at hxe; cases hxe
        · exact ⟨x, hxys, tr, hxe⟩
      obtain ⟨tr, hmap, x, hx, hxe⟩ := ih hys
      refine ⟨tr, ?_, x, List.mem_cons_of_mem y hx, hxe⟩
      simp only [wrapper_map, hy]
      cases hr : (wrapper_map F ign ret ys).1 with
      | error tr2 => rw [hr] at hmap; cases hmap; rfl
      | ok vs => rw [hr] at hmap; cases hmap

theorem wrapper_succ_flag_irrel {α : Type} (F : Featurizer α) (ret : Bool)
    (x : WrapItem α)
    (h : ∃ args r, starArgs x = Except.ok args ∧ F.featurize args = Except.ok r) :
    ∀ ign ign2 : Bool,
      featurize_wrapper F ign ret x = featurize_wrapper F ign2 ret x := by
  obtain ⟨args, r, h1, h2⟩ := h
  intro ign ign2
  simp [featurize_wrapper, h1, h2]

theorem wrapper_map_congr {α : Type} (F : Featurizer α) (ign ign2 ret : Bool)
    (items : List (WrapItem α))
    (h : ∀ x ∈ items, featurize_wrapper F ign ret x = featurize_wrapper F ign2 ret x) :
    wrapper_map F ign ret items = wrapper_map F ign2 ret items := by
  induction items with
  | nil => rfl
  | cons x xs ih =>
    have hx := h x (List.mem_cons_self x xs)
    have hxs := ih fun y hy => h y (List.mem_cons_of_mem x hy)
    simp only [wrapper_map, hx, hxs]

theorem wrapper_map_ok_mem {α : Type} (F : Featurizer α) (ign ret : Bool)
    (items : List (WrapItem α)) (res : List (List FVal))
    (h : (wrapper_map F ign ret items).1 = Except.ok res) :
    ∀ v ∈ res, ∃ x ∈ items, (featurize_wrapper F ign ret x).1 = Except.ok v := by
  obtain ⟨_, hm⟩ := wrapper_map_ok_map F ign ret items res h
  intro v hv
  have hvm : Except.ok v ∈ res.map (Except.ok (ε := String)) :=
    List.mem_map_of_mem _ hv
  rw [← hm] at hvm
  obtain ⟨x, hx, hfx⟩ := List.mem_map.mp hvm
  exact ⟨x, hx, hfx⟩

/-- C1: for every item sequence containing at least one item on which the
transform raises (and whose items all star-unpack, so the transform is what
runs on them), calling `featurize_many` with `ignore_errors = false` (and
`return_errors` at its default `false`) re-raises a transform exception to
the caller and produces no batch result: the outcome is `Except.error` of
the re-raised traceback, which is the traceback the transform raised on one
of the items. -/
theorem claim_C1 {α : Type} (F : Featurizer α) (entries : List (PyEntry α))
    (hw : ∀ x ∈ prep entries, ∃ args, starArgs x = Except.ok args)
    (hfail : ∃ x ∈ prep entries, ∃ args tr,
      starArgs x = Except.ok args ∧ F.featurize args = Except.error tr) :
    ∃ tr, (featurize_many F (PyInput.seq entries) false false).1 =
        Except.error (PyError.raised tr) ∧
      ∃ x ∈ prep entries, ∃ args,
        starArgs x = Except.ok args ∧ F.featurize args = Except.error tr := by
  obtain ⟨x0, hx0, args0, tr0, hs0, hf0⟩ := hfail
  have hx0err : (featurize_wrapper F false false x0).1 = Except.error tr0 := by
    simp [featurize_wrapper, hs0, hf0, exceptBranch]
  obtain ⟨tr, hmap, x, hx, hxe⟩ :=
    wrapper_map_err_mem F false false (prep entries) ⟨x0, hx0, tr0, hx0err⟩
  obtain ⟨args, hargs⟩ := hw x hx
  have hfeat : F.featurize args = Except.error tr := by
    cases hf : F.featurize args with
    | ok feats =>
      have hok : (featurize_wrapper F false false x).1 = Except.ok feats := by
        simp [featurize_wrapper, hargs, hf]
      rw [hok] at hxe
      cases hxe
    | error tr2 =>
      have herr : (featurize_wrapper F false false x).1 = Except.error tr2 := by
        simp [featurize_wrapper, hargs, hf, exceptBranch]
      rw [herr] at hxe
      cases hxe
      rfl
  refine ⟨tr, ?_, x, hx, args, hargs, hfeat⟩
  cases entries with
  | nil => cases hx0
  | cons e es =>
    rcases hp : wrapper_map F false false (prep (e :: es)) with ⟨r, evs⟩
    rw [hp] at hmap
    simp only at hmap
    subst hmap
    simp [featurize_many, hp]

/-- C1 witness: the example featurizer raises on the two-argument tuple
`(1, 2)`, and the batch call with `ignore_errors = false` re-raises that
exception with no batch result. -/
theorem claim_C1_witness :
    ∃ tr, (featurize_many dblF (PyInput.seq [PyEntry.tup [1, 2]]) false false).1 =
        Except.error (PyError.raised tr) ∧
      ∃ x ∈ prep [PyEntry.tup [1, 2]], ∃ args,
        starArgs x = Except.ok args ∧ dblF.featurize args = Except.error tr :=
  claim_C1 dblF [PyEntry.tup [1, 2]]
    (by intro x hx; simp [prep, PyEntry.isTup] at hx; subst hx; exact ⟨_, rfl⟩)
    ⟨WrapItem.raw (PyEntry.tup [1, 2]), by simp [prep, PyEntry.isTup],
     [PyEntry.scalar 1, PyEntry.scalar 2], failTrace, rfl, rfl⟩

/-- C2: for every featurizer and every input (sequence or not), calling
`featurize_many` with `return_errors = true` and `ignore_errors = false`
raises the configuration `ValueError` and records no invocation of the
transform or of the label query: the event trace is empty. -/
theorem claim_C2 {α : Type} (F : Featurizer α) (input : PyInput α) :
    featurize_many F input false true =
      (Except.error (PyError.valueError configErrMsg), ([] : List (Event α))) := rfl

/-- C3: whenever `featurize_many` on a sequence returns normally, the batch
result has one element per input entry, and the i-th element is exactly the
per-item wrapper output on the i-th prepared item (input order preserved),
stated as a map equation over the prepared item list (which `prep` keeps in
one-to-one order-preserving correspondence with the entries). -/
theorem claim_C3 {α : Type} (F : Featurizer α) (entries : List (PyEntry α))
    (ign ret : Bool) (res : List (List FVal))
    (h : (featurize_many F (PyInput.seq entries) ign ret).1 = Except.ok res) :
    res.length = entries.length ∧
      (prep entries).map (fun x => (featurize_wrapper F ign ret x).1) =
        res.map Except.ok := by
  simp only [featurize_many] at h
  split at h
  · simp at h
  · split at h
    next hlen =>
      have hent : entries = [] := List.length_eq_zero.mp hlen
      subst hent
      simp at h
      subst h
      simp [prep]
    next hlen =>
      rcases hp : wrapper_map F ign ret (prep entries) with ⟨r, evs⟩
      rw [hp] at h
      cases r with
      | error tr => simp at h
      | ok vs =>
        simp at h
        subst h
        have h1 : (wrapper_map F ign ret (prep entries)).1 = Except.ok vs := by
          rw [hp]
        obtain ⟨hl, hm⟩ := wrapper_map_ok_map F ign ret (prep entries) vs h1
        exact ⟨by rw [hl, prep_length], hm⟩

/-- C3 witness: on the singleton scalar sequence `[3]` in tolerant mode the
batch result is `[[6]]`, of the same length as the input and equal to the
wrapper output on the prepared item. -/
theorem claim_C3_witness :
    ([[FVal.num 6]] : List (List FVal)).length =
        ([PyEntry.scalar (3 : Int)]).length ∧
      (prep [PyEntry.scalar (3 : Int)]).map
          (fun x => (featurize_wrapper dblF true false x).1) =
        ([[FVal.num 6]] : List (List FVal)).map Except.ok :=
  claim_C3 dblF [PyEntry.scalar 3] true false [[FVal.num 6]] (by decide)

/-- C4: in tolerant mode, on an item whose transform raises, the wrapper
returns the all-NaN vector of length the feature-label count, with the
formatted trace appended as one extra trailing element exactly when
`return_errors = true`; and in any batch the other items' results (each item
being processed independently) are the same as in the batch with the failing
item removed. -/
theorem claim_C4 {α : Type} (F : Featurizer α) (ret : Bool) (x : WrapItem α)
    (args : List (PyEntry α)) (tr : String)
    (h1 : starArgs x = Except.ok args) (h2 : F.featurize args = Except.error tr) :
    (featurize_wrapper F true ret x).1 =
      Except.ok (List.replicate F.feature_labels.length FVal.nan ++
        (if ret then [FVal.str tr] else [])) ∧
    ∀ pre post : List (WrapItem α),
      (wrapper_map F true ret (pre ++ x :: post)).1 =
        Except.ok (pre.map (wrapOut F ret) ++
          (List.replicate F.feature_labels.length FVal.nan ++
            (if ret then [FVal.str tr] else [])) :: post.map (wrapOut F ret)) ∧
      (wrapper_map F true ret (pre ++ post)).1 =
        Except.ok (pre.map (wrapOut F ret) ++ post.map (wrapOut F ret)) := by
  have hw : (featurize_wrapper F true ret x).1 =
      Except.ok (List.replicate F.feature_labels.length FVal.nan ++
        (if ret then [FVal.str tr] else [])) := by
    cases ret <;> simp [featurize_wrapper, h1, h2, exceptBranch]
  refine ⟨hw, fun pre post => ⟨?_, ?_⟩⟩
  · rw [wrapper_map_ignore]
    have hx : wrapOut F ret x =
        List.replicate F.feature_labels.length FVal.nan ++
          (if ret then [FVal.str tr] else []) := by
      have hspec := wrapOut_spec F ret x
      rw [hw] at hspec
      exact (Except.ok.inj hspec).symm
    simp [hx]
  · rw [wrapper_map_ignore]
    simp

/-- C4 witness: the example featurizer raises on the empty tuple; in
tolerant error-capture mode the wrapper returns one NaN (the label count is
one) with the trace string appended. -/
theorem claim_C4_witness :
    (featurize_wrapper dblF true true (WrapItem.zipped (PyEntry.tup []))).1 =
      Except.ok (List.replicate dblF.feature_labels.length FVal.nan ++
        (if true then [FVal.str failTrace] else [])) :=
  (claim_C4 dblF true (WrapItem.zipped (PyEntry.tup [])) [PyEntry.tup []]
    failTrace rfl rfl).1

/-- C5: if the transform returns vectors of length the feature-label count
whenever it succeeds, then every vector in a normally returned batch result
has that same length, plus one exactly when `return_errors = true`, whether
the item succeeded or failed. -/
theorem claim_C5 {α : Type} (F : Featurizer α) (input : PyInput α)
    (ign ret : Bool) (res : List (List FVal))
    (hlen : ∀ args r, F.featurize args = Except.ok r →
      r.length = F.feature_labels.length)
    (h : (featurize_many F input ign ret).1 = Except.ok res) :
    ∀ v ∈ res, v.length = F.feature_labels.length + (if ret then 1 else 0) := by
  have hvlen : ∀ (x : WrapItem α) v,
      (featurize_wrapper F ign ret x).1 = Except.ok v →
      v.length = F.feature_labels.length + (if ret then 1 else 0) := by
    intro x v hv
    cases hs : starArgs x with
    | error tr =>
      cases ign with
      | false => simp [featurize_wrapper, hs, exceptBranch] at hv
      | true =>
        cases ret <;> simp [featurize_wrapper, hs, exceptBranch] at hv <;>
          subst hv <;> simp
    | ok args =>
      cases hf : F.featurize args with
      | ok feats =>
        have hfl := hlen args feats hf
        cases ret <;> simp [featurize_wrapper, hs, hf] at hv <;>
          subst hv <;> simp [hfl]
      | error tr =>
        cases ign with
        | false => simp [featurize_wrapper, hs, hf, exceptBranch] at hv
        | true =>
          cases ret <;> simp [featurize_wrapper, hs, hf, exceptBranch] at hv <;>
            subst hv <;> simp
  simp only [featurize_many] at h
  split at h
  · simp at h
  · split at h
    · simp at h
    next entries =>
      split at h
      · simp at h
        subst h
        intro v hv
        cases hv
      · rcases hp : wrapper_map F ign ret (prep entries) with ⟨r, evs⟩
        rw [hp] at h
        cases r with
        | error tr => simp at h
        | ok vs =>
          simp at h
          subst h
          intro v hv
          obtain ⟨x, _, hfx⟩ :=
            wrapper_map_ok_mem F ign ret (prep entries) vs (by rw [hp]) v hv
          exact hvlen x v hfx

/-- C5 witness: with `return_errors = true`, a succeeding scalar entry and a
failing tuple entry both yield vectors of length two (one label plus the
trailing element). -/
theorem claim_C5_witness :
    ([FVal.nan, FVal.str failTrace] : List FVal).length =
      dblF.feature_labels.length + (if true then 1 else 0) :=
  claim_C5 dblF (PyInput.seq [PyEntry.scalar 3, PyEntry.tup [1, 2]]) true true
    [[FVal.num 6, FVal.nan], [FVal.nan, FVal.str failTrace]]
    (by
      intro args r hr
      match args with
      | [] => simp [dblF, dblFeaturize] at hr
      | [PyEntry.scalar a] =>
        simp [dblF, dblFeaturize] at hr
        simp [← hr, dblF]
      | [PyEntry.tup xs] => simp [dblF, dblFeaturize] at hr
      | _ :: _ :: _ => simp [dblF, dblFeaturize] at hr)
    (by decide)
    [FVal.nan, FVal.str failTrace] (by decide)

/-- C6 counterexample: the claim compares the two `ignore_errors` settings
with `return_errors` held equal, but at `return_errors = true` the
`ignore_errors = false` call raises the configuration `ValueError` before
processing, while the `ignore_errors = true` call returns normally — even
though every item succeeds — so the two outcomes differ. -/
theorem claim_C6_cex :
    featurize_many dblF (PyInput.seq [PyEntry.scalar 1]) true true ≠
      featurize_many dblF (PyInput.seq [PyEntry.scalar 1]) false true := by
  decide

/-- C6 (amended): for every item sequence on which the transform succeeds
for every item, `featurize_many` with `ignore_errors = true` returns a
result identical to `ignore_errors = false`, with `return_errors = false`
(its default) on both calls. -/
theorem claim_C6 {α : Type} (F : Featurizer α) (entries : List (PyEntry α))
    (h : ∀ x ∈ prep entries, ∃ args r,
      starArgs x = Except.ok args ∧ F.featurize args = Except.ok r) :
    featurize_many F (PyInput.seq entries) true false =
      featurize_many F (PyInput.seq entries) false false := by
  have hcong := wrapper_map_congr F true false false (prep entries)
    (fun x hx => wrapper_succ_flag_irrel F false x (h x hx) true false)
  simp only [featurize_many, hcong]
  simp

/-- C6 witness: on the all-succeeding singleton `[1]`, the tolerant and the
fail-fast call return the same batch result. -/
theorem claim_C6_witness :
    featurize_many dblF (PyInput.seq [PyEntry.scalar 1]) true false =
      featurize_many dblF (PyInput.seq [PyEntry.scalar 1]) false false :=
  claim_C6 dblF [PyEntry.scalar 1] (by
    intro x hx
    simp [prep, PyEntry.isTup] at hx
    subst hx
    exact ⟨[PyEntry.scalar 1], [FVal.num 2], rfl, by decide⟩)

/-- C7: for every non-empty all-scalar entry sequence, `featurize_many`
wraps each entry into the one-element tuple `(e,)` (the `zip(entries)`
wrapping), and on such a wrapped item the wrapper invokes the transform with
exactly that one-element argument tuple. -/
theorem claim_C7 {α : Type} (es : List α) (h : es ≠ []) (F : Featurizer α)
    (ign ret : Bool) :
    prep (es.map PyEntry.scalar) =
      es.map (fun a => WrapItem.zipped (PyEntry.scalar a)) ∧
    ∀ a : α, ∃ rest,
      (featurize_wrapper F ign ret (WrapItem.zipped (PyEntry.scalar a))).2 =
        Event.featCall [PyEntry.scalar a] :: rest := by
  constructor
  · cases es with
    | nil => cases h rfl
    | cons a as => simp [prep, PyEntry.isTup]
  · intro a
    cases hf : F.featurize [PyEntry.scalar a] with
    | ok feats =>
      exact ⟨[], by simp [featurize_wrapper, starArgs, hf]⟩
    | error tr =>
      cases ign with
      | false =>
        exact ⟨[], by simp [featurize_wrapper, starArgs, hf, exceptBranch]⟩
      | true =>
        exact ⟨[Event.labelsCall],
          by cases ret <;> simp [featurize_wrapper, starArgs, hf, exceptBranch]⟩

/-- C7 witness: the singleton scalar sequence `[1]` is wrapped into
one-element tuples and the transform receives that tuple. -/
theorem claim_C7_witness :
    prep (List.map PyEntry.scalar [(1 : Int)]) =
      List.map (fun a => WrapItem.zipped (PyEntry.scalar a)) [(1 : Int)] ∧
    ∀ a : Int, ∃ rest,
      (featurize_wrapper dblF false false (WrapItem.zipped (PyEntry.scalar a))).2 =
        Event.featCall [PyEntry.scalar a] :: rest :=
  claim_C7 [(1 : Int)] (by decide) dblF false false

/-- C8: on the empty entry sequence, `featurize_many` under any flag
combination satisfying the configuration precondition returns the empty
batch result with an empty event trace, so neither the transform nor the
label query is invoked. -/
theorem claim_C8 {α : Type} (F : Featurizer α) (ign ret : Bool)
    (h : ret = true → ign = true) :
    featurize_many F (PyInput.seq ([] : List (PyEntry α))) ign ret =
      (Except.ok [], ([] : List (Event α))) := by
  cases ign with
  | true => cases ret <;> rfl
  | false =>
    cases ret with
    | false => rfl
    | true => exact absurd (h rfl) (by decide)

/-- C8 witness: the empty sequence in tolerant error-capture mode returns
the empty result with no invocations. -/
theorem claim_C8_witness :
    (true = true → true = true) ∧
      featurize_many dblF (PyInput.seq ([] : List (PyEntry Int))) true true =
        (Except.ok [], ([] : List (Event Int))) :=
  ⟨fun hh => hh, claim_C8 dblF true true (fun hh => hh)⟩

/-- C9: on an input without `__getitem__`, `featurize_many` under any flag
combination satisfying the configuration precondition raises the
input-shape `Exception` with an empty event trace: the transform is never
invoked and no batch result is produced. -/
theorem claim_C9 {α : Type} (F : Featurizer α) (ign ret : Bool)
    (h : ret = true → ign = true) :
    featurize_many F (PyInput.notSeq : PyInput α) ign ret =
      (Except.error (PyError.exception entriesErrMsg), ([] : List (Event α))) := by
  cases ign with
  | true => cases ret <;> rfl
  | false =>
    cases ret with
    | false => rfl
    | true => exact absurd (h rfl) (by decide)

/-- C9 witness: a non-sequence input with default flags raises the
input-shape error with no invocations. -/
theorem claim_C9_witness :
    (false = true → false = true) ∧
      featurize_many dblF (PyInput.notSeq : PyInput Int) false false =
        (Except.error (PyError.exception entriesErrMsg), ([] : List (Event Int))) :=
  ⟨fun hh => hh, claim_C9 dblF false false (fun hh => hh)⟩

/-- C10: for every input, non-sequence inputs included, with
`return_errors = true` and `ignore_errors = false` the error raised is the
configuration `ValueError` and never the input-shape `Exception`: the
configuration check runs first. -/
theorem claim_C10 {α : Type} (F : Featurizer α) (input : PyInput α) :
    (featurize_many F input false true).1 =
        Except.error (PyError.valueError configErrMsg) ∧
    ∀ m, (featurize_many F input false true).1 ≠
        Except.error (PyError.exception m) := by
  refine ⟨rfl, ?_⟩
  intro m hm
  have hv : (featurize_many F input false true).1 =
      Except.error (PyError.valueError configErrMsg) := rfl
  rw [hv] at hm
  cases hm

end XenonPy
